import Mathlib

/-!
Verification of the attendance-consistency, query-building and batch-loading
core of the employee-management GraphQL API.

Shallow embedding conventions:
* object ids (`_id`) are `String`s (the `toString` of a Mongo ObjectId);
* timestamps and calendar dates are `Int` (milliseconds since the epoch),
  with the current time `now` passed explicitly where the source reads the
  clock (`new Date()`, `Date.now`);
* JS numbers are `Int` where the source holds integers (ages, dates) and `ℚ`
  where the source performs division (the attendance percentage);
* the document store (Mongoose/MongoDB, an external collaborator) is a pair
  of lists (`employees`, `records`); its query operators (`$in`, `$regex`,
  `$gte`, `$all`, sort specifications, the unique index on
  `(employeeId, date)`) are given their documented semantics on those lists;
* fallible operations return `Except`/an explicit response value.
-/

namespace EmployeeApi

/-- A stored employee document (`employeeSchema` in `src/models/employee.ts`,
with the `createdAt`/`updatedAt` fields added by `timestamps: true`). -/
structure Employee where
  id : String := ""
  name : String := ""
  email : String := ""
  age : Int := 18
  phone : Option String := none
  «class» : String := ""
  subjects : List String := []
  attendance : ℚ := 100
  role : String := "EMPLOYEE"
  dateOfJoining : Int := 0
  lastAttendanceUpdate : Option Int := none
  createdAt : Int := 0
  updatedAt : Int := 0
deriving DecidableEq

/-- A stored attendance record (`attendanceRecordSchema` in
`src/models/attendanceRecord.ts`, with `createdAt` from `timestamps`). -/
structure AttendanceRecord where
  id : String := ""
  employeeId : String := ""
  date : Int := 0
  present : Bool := true
  notes : Option String := none
  createdBy : String := ""
  createdAt : Int := 0
deriving DecidableEq

/-- The two collections of the document store. -/
structure DB where
  employees : List Employee := []
  records : List AttendanceRecord := []
deriving DecidableEq

/-- A field-level validation error (`ValidationError` in `src/types/index.ts`). -/
structure ValidationError where
  field : Option String := none
  message : String := ""
  code : String := ""
deriving DecidableEq

/-- The `markAttendance` argument (`AttendanceInput` in `src/types/index.ts`). -/
structure AttendanceInput where
  employeeId : String := ""
  date : Int := 0
  present : Bool := true
  notes : Option String := none
deriving DecidableEq

/-- The mutation response shape (`MutationResponse` in `src/resolvers/index.ts`;
the `employee` payload field is omitted: `markAttendance` never sets it). -/
structure MutationResponse where
  success : Bool
  message : Option String := none
  errors : List ValidationError := []
deriving DecidableEq

/-- Function `validateDate` from `src/utils/validation.ts`: the date must parse to a
real date and be `<=` the current time.  In the `Int` model of dates the
`instanceof Date`/`isNaN` conjuncts are always true, leaving `date <= now`. -/
def validateDate (date now : Int) : Bool :=
  date ≤ now

/-- Function `validateAttendanceInput` from `src/utils/validation.ts`: a date error when
`validateDate` fails, and a notes error when notes are supplied (truthy, i.e.
non-empty) and exceed 500 characters. -/
def validateAttendanceInput (now : Int) (input : AttendanceInput) : List ValidationError :=
  (if ¬ validateDate input.date now then
    [{ field := some "date"
       message := "Invalid date or future date not allowed"
       code := "INVALID_DATE" }]
   else []) ++
  (match input.notes with
   | some n => if ¬ n.isEmpty ∧ n.length > 500 then
       [{ field := some "notes"
          message := "Notes cannot exceed 500 characters"
          code := "INVALID_NOTES" }]
     else []
   | none => [])

/-- The body of `updateAttendancePercentage` (instance method in
`src/models/employee.ts`), applied to a found employee document `e`: reload
the employee's attendance records, set `attendance` to
`(presentDays / records.length) * 100` (or `100` when there are none), stamp
`lastAttendanceUpdate`, and save the document back (replacing the stored
document with id `e.id`). -/
def updateAttendancePercentage (db : DB) (now : Int) (e : Employee) : DB :=
  let records := db.records.filter (fun r => r.employeeId = e.id)
  let att : ℚ :=
    if records.length = 0 then 100
    else ((records.filter (fun r => r.present)).length : ℚ) / (records.length : ℚ) * 100
  { db with
    employees := db.employees.map (fun x =>
      if x.id = e.id then
        { e with attendance := att, lastAttendanceUpdate := some now }
      else x) }

/-- Static method `Employee.updateAttendanceStats` (in
`src/models/employee.ts`): `findById` the employee and, when found, run
`updateAttendancePercentage`; a silent no-op when the employee is absent. -/
def updateAttendanceStats (db : DB) (now : Int) (employeeId : String) : DB :=
  match db.employees.find? (fun e => e.id = employeeId) with
  | some e => updateAttendancePercentage db now e
  | none => db

/-- Record creation, `AttendanceRecord.create`, as run by Mongoose
(`src/models/attendanceRecord.ts`): schema validation of `date`
(`validateDate`), then the `pre('save')` middleware (employee must exist, date
must not be in the future), then the insert — rejected by the store's unique
index on `(employeeId, date)` with a duplicate-key error — then the
`post('save')` middleware (`Employee.updateAttendanceStats`).  On any thrown
error the store is unchanged (every failure happens before the insert). -/
def attendanceRecordCreate (db : DB) (now : Int) (doc : AttendanceRecord) :
    Except String DB :=
  if ¬ validateDate doc.date now then
    .error "Invalid date or future date not allowed"
  else if (db.employees.find? (fun e => e.id = doc.employeeId)).isNone then
    .error "Employee not found"
  else if doc.date > now then
    .error "Future dates are not allowed"
  else if db.records.any (fun r => r.employeeId = doc.employeeId ∧ r.date = doc.date) then
    .error "E11000 duplicate key error"
  else
    let db1 : DB := { db with records := db.records ++ [doc] }
    .ok (updateAttendanceStats db1 now doc.employeeId)

/-- The `markAttendance` resolver (`src/resolvers/index.ts`): validate the
input and return the validation errors without persisting on failure;
otherwise create the attendance record (`newId` stands for the ObjectId the
store generates, `userId` for `context.user.id`), catching any thrown error as
a `success:false` response with code `INTERNAL_SERVER_ERROR`; on success run
`Employee.updateAttendanceStats` again and report success. -/
def markAttendance (db : DB) (now : Int) (userId newId : String)
    (input : AttendanceInput) : MutationResponse × DB :=
  let validationErrors := validateAttendanceInput now input
  if validationErrors.length > 0 then
    ({ success := false, errors := validationErrors }, db)
  else
    match attendanceRecordCreate db now
      { id := newId
        employeeId := input.employeeId
        date := input.date
        present := input.present
        notes := input.notes
        createdBy := userId
        createdAt := now } with
    | .error msg =>
      ({ success := false
         message := some "Failed to mark attendance"
         errors := [{ message := msg, code := "INTERNAL_SERVER_ERROR" }] }, db)
    | .ok db1 =>
      let db2 := updateAttendanceStats db1 now input.employeeId
      ({ success := true, message := some "Attendance marked successfully" }, db2)

/-- The attendance percentage the specification demands for employee `id` in
state `db`: `100 × presentDays / totalDays` over that employee's attendance
records, or `100` if no records exist. -/
def expectedAttendance (db : DB) (id : String) : ℚ :=
  let records := db.records.filter (fun r => r.employeeId = id)
  if records.length = 0 then 100
  else 100 * ((records.filter (fun r => r.present)).length : ℚ) / (records.length : ℚ)

/-- The §3 invariant: every stored employee's `attendance` field equals the
percentage recomputed from the attendance ledger. -/
def attendanceInvariant (db : DB) : Prop :=
  ∀ e ∈ db.employees, e.attendance = expectedAttendance db e.id

instance (db : DB) : Decidable (attendanceInvariant db) :=
  List.decidableBAll _ db.employees

/-- A date range argument (`DateRangeInput` in `src/types/index.ts`). -/
structure DateRangeInput where
  startDate : Int := 0
  endDate : Int := 0
deriving DecidableEq

/-- The `employees` filter argument (`EmployeeFilter` in `src/types/index.ts`).
Roles are the enum strings `ADMIN` / `EMPLOYEE`. -/
structure EmployeeFilter where
  name : Option String := none
  «class» : Option String := none
  minAge : Option Int := none
  maxAge : Option Int := none
  minAttendance : Option ℚ := none
  maxAttendance : Option ℚ := none
  subjects : Option (List String) := none
  role : Option String := none
  dateRange : Option DateRangeInput := none
deriving DecidableEq

/-- The Mongo query document built by the `employees` resolver.  Each field is
`some _` exactly when the resolver added the corresponding key: `name` holds
the `$regex` pattern (with the `i` option), `ageGte`/`ageLte` the `$gte`/`$lte`
bounds of the `age` key (likewise for `attendance`), `subjectsAll` the `$all`
list, and `class`/`role` the exact-match values. -/
structure MongoQuery where
  name : Option String := none
  «class» : Option String := none
  ageGte : Option Int := none
  ageLte : Option Int := none
  attendanceGte : Option ℚ := none
  attendanceLte : Option ℚ := none
  subjectsAll : Option (List String) := none
  role : Option String := none
deriving DecidableEq

/-- The query-building block of the `employees` resolver
(`src/resolvers/index.ts`, lines 81-91).  Each `if (filter.x)` test is JS
truthiness: a supplied value that is `0`, the empty string or the empty list
is skipped exactly like an absent one.  The `age` key is first overwritten
with `{ $gte }` and then merged with `{ ...age, $lte }`, so the final bounds
are independent (likewise `attendance`). -/
def buildQuery (filter : Option EmployeeFilter) : MongoQuery :=
  match filter with
  | none => {}
  | some f =>
    { name := match f.name with
        | some s => if s.isEmpty then none else some s
        | none => none
      «class» := match f.«class» with
        | some s => if s.isEmpty then none else some s
        | none => none
      ageGte := match f.minAge with
        | some v => if v = 0 then none else some v
        | none => none
      ageLte := match f.maxAge with
        | some v => if v = 0 then none else some v
        | none => none
      attendanceGte := match f.minAttendance with
        | some v => if v = 0 then none else some v
        | none => none
      attendanceLte := match f.maxAttendance with
        | some v => if v = 0 then none else some v
        | none => none
      subjectsAll := match f.subjects with
        | some l => if l.isEmpty then none else some l
        | none => none
      role := match f.role with
        | some s => if s.isEmpty then none else some s
        | none => none }

/-- Whether the first character list occurs at the head of the second. -/
def leadingMatch : List Char → List Char → Bool
  | [], _ => true
  | _ :: _, [] => false
  | p :: ps, c :: cs => p = c && leadingMatch ps cs

/-- Whether the first character list occurs consecutively anywhere in the
second. -/
def occursIn (pat : List Char) : List Char → Bool
  | [] => pat.isEmpty
  | c :: cs => leadingMatch pat (c :: cs) || occursIn pat cs

/-- JS `String.prototype.toLowerCase` on one character (the sort-enum values
and names in play are ASCII). -/
def jsCharToLower (c : Char) : Char :=
  if 'A' ≤ c ∧ c ≤ 'Z' then Char.ofNat (c.toNat + 32) else c

/-- JS `String.prototype.toLowerCase`. -/
def jsToLowerCase (s : String) : String :=
  String.mk (s.data.map jsCharToLower)

/-- JS `String.prototype.endsWith`. -/
def jsEndsWith (s suffixStr : String) : Bool :=
  leadingMatch suffixStr.data.reverse s.data.reverse

/-- Case-insensitive substring containment of the pattern in the value: the
reading the spec's words ("case-insensitive substring match") give the name
filter.  Used on the specification side; the store side runs the pattern as
a regex (`ciRegexMatch` below), and the two are proved to agree exactly on
metacharacter-free patterns. -/
def ciContains (value pattern : String) : Bool :=
  occursIn (pattern.data.map jsCharToLower) (value.data.map jsCharToLower)

/-- The metacharacters of JS regular expressions. -/
def regexMetaChars : List Char :=
  ['.', '*', '+', '?', '^', '$', '(', ')', '[', ']', '\x7b', '\x7d', '|', '\\']

/-- Whether a string is a literal regex pattern — free of metacharacters —
so that an unanchored regex search for it is exactly a substring search. -/
def isLiteralPattern (s : String) : Bool :=
  s.data.all (fun c => !(regexMetaChars.contains c))

/-- One pattern character against one subject character: `.` matches any
character, every other character matches itself.  This is the regex pattern
fragment — plain characters plus the `.` wildcard — that the theorems below
touch; it is faithful to real regex semantics on that fragment. -/
def regexCharMatches (p c : Char) : Bool :=
  p = '.' || p = c

/-- Anchored match of the pattern at the head of the subject. -/
def regexLeadingMatch : List Char → List Char → Bool
  | [], _ => true
  | _ :: _, [] => false
  | p :: ps, c :: cs => regexCharMatches p c && regexLeadingMatch ps cs

/-- Unanchored regex search: the pattern matches at some position of the
subject. -/
def regexSearch (pat : List Char) : List Char → Bool
  | [] => pat.isEmpty
  | c :: cs => regexLeadingMatch pat (c :: cs) || regexSearch pat cs

/-- Store semantics of the `name` key the resolver builds — `$regex` with the
`i` option and the raw supplied string as the pattern: an unanchored,
case-insensitive regex search of the pattern in the value (modelled on the
plain-character/`.`-wildcard fragment).  On metacharacter-free patterns this
coincides with case-insensitive substring containment; on others it does
not — e.g. the pattern `.` matches every non-empty value. -/
def ciRegexMatch (value pattern : String) : Bool :=
  regexSearch (pattern.data.map jsCharToLower) (value.data.map jsCharToLower)

/-- Store semantics of the built query document on one employee document:
the implicit Mongo conjunction of all present keys — the `name` key as the
`$regex`/`i` search `ciRegexMatch` with the raw supplied pattern (regex
matching, not literal substring matching), `$gte`/`$lte` as inclusive
bounds, `$all` as containment of every listed subject, bare values as exact
equality. -/
def matchesQuery (q : MongoQuery) (e : Employee) : Bool :=
  (match q.name with | some pat => ciRegexMatch e.name pat | none => true) &&
  (match q.«class» with | some c => e.«class» = c | none => true) &&
  (match q.ageGte with | some v => v ≤ e.age | none => true) &&
  (match q.ageLte with | some v => e.age ≤ v | none => true) &&
  (match q.attendanceGte with | some v => v ≤ e.attendance | none => true) &&
  (match q.attendanceLte with | some v => e.attendance ≤ v | none => true) &&
  (match q.subjectsAll with | some l => l.all (fun s => e.subjects.contains s) | none => true) &&
  (match q.role with | some r => e.role = r | none => true)

/-- The sort-object construction of the `employees` resolver
(`src/resolvers/index.ts`, lines 93-95): with a sort argument, a single-key
object whose key is `sort.toLowerCase()` — the whole enum value, suffix
included — and whose direction is `-1` when the value ends in `_DESC`, else
`1`; without one, `createdAt` descending. -/
def buildSortObj (sort : Option String) : List (String × Int) :=
  match sort with
  | some s => [(jsToLowerCase s, if jsEndsWith s "_DESC" then -1 else 1)]
  | none => [("createdAt", -1)]

/-- The ten runtime values of the `EmployeeSort` GraphQL enum
(`src/schema/index.ts`). -/
def employeeSortValues : List String :=
  ["NAME_ASC", "NAME_DESC", "AGE_ASC", "AGE_DESC", "CLASS_ASC", "CLASS_DESC",
   "ATTENDANCE_ASC", "ATTENDANCE_DESC", "CREATED_AT_ASC", "CREATED_AT_DESC"]

/-- The keys of the employee documents (`employeeSchema` plus the
`timestamps` pair): the only keys a store sort can act on. -/
def employeeFieldNames : List String :=
  ["name", "email", "age", "phone", "class", "subjects", "attendance",
   "role", "dateOfJoining", "lastAttendanceUpdate", "createdAt", "updatedAt"]

/-- Store semantics of ordering one employee key: `le` on the totally ordered
document fields; an unknown key orders nothing (Mongo sorting on a key no
document has is a no-op), modelled as the always-true relation, under which a
stable sort is the identity. -/
def employeeFieldLe (key : String) (a b : Employee) : Bool :=
  if key = "name" then a.name ≤ b.name
  else if key = "age" then a.age ≤ b.age
  else if key = "class" then a.«class» ≤ b.«class»
  else if key = "attendance" then a.attendance ≤ b.attendance
  else if key = "createdAt" then a.createdAt ≤ b.createdAt
  else if key = "dateOfJoining" then a.dateOfJoining ≤ b.dateOfJoining
  else true

/-- Store semantics of a sort object: the single-key objects this code builds
order by that key, reversed when the direction is `-1`. -/
def sortObjLe (sortObj : List (String × Int)) (a b : Employee) : Bool :=
  match sortObj with
  | [(key, dir)] => if dir = -1 then employeeFieldLe key b a else employeeFieldLe key a b
  | _ => true

/-- Store semantics of `find(query).sort(sortObj)`: a stable sort of the
matching documents. -/
def storeSortEmployees (sortObj : List (String × Int)) (l : List Employee) : List Employee :=
  List.insertionSort (fun a b => sortObjLe sortObj a b = true) l

/-- The pagination metadata of the `employees` result
(`PageInfo` in `src/types/index.ts`). -/
structure PageInfo where
  hasNextPage : Bool
  hasPreviousPage : Bool
  totalPages : Nat
  totalCount : Nat
  currentPage : Nat
deriving DecidableEq

/-- The `employees` result (`EmployeeQueryResult` in `src/resolvers/index.ts`). -/
structure EmployeeQueryResult where
  edges : List Employee
  pageInfo : PageInfo
deriving DecidableEq

/-- The observable store call issued by the `employees` resolver:
`find(query).sort(sortObj).skip(skip).limit(limit)`. -/
structure StoreFindCall where
  query : MongoQuery
  sortObj : List (String × Int)
  skip : Nat
  limit : Nat
deriving DecidableEq

/-- The `employees` resolver (`src/resolvers/index.ts`, lines 56-124), run
against a store holding `store` (pages are `Nat`s; the claims restrict to the
1-indexed `page ≥ 1`, `pageSize ≥ 1` range, where `Math.ceil(totalCount /
pageSize)` over exact JS division is `(totalCount + pageSize - 1) /
pageSize`): `skip = (page-1)*pageSize`, `countDocuments(query)` for
`totalCount`, then the find call, then the page-info record. -/
def employeesResolver (store : List Employee) (filter : Option EmployeeFilter)
    (sort : Option String) (page pageSize : Nat) :
    EmployeeQueryResult × StoreFindCall :=
  let skip := (page - 1) * pageSize
  let query := buildQuery filter
  let sortObj := buildSortObj sort
  let totalCount := (store.filter (fun e => matchesQuery query e)).length
  let totalPages := (totalCount + pageSize - 1) / pageSize
  let edges :=
    ((storeSortEmployees sortObj (store.filter (fun e => matchesQuery query e))).drop
      skip).take pageSize
  ({ edges := edges
     pageInfo :=
       { hasNextPage := page < totalPages
         hasPreviousPage := page > 1
         totalPages := totalPages
         totalCount := totalCount
         currentPage := page } },
   { query := query, sortObj := sortObj, skip := skip, limit := pageSize })

/-- The batch function of the employee loader (`createDataLoaders` in
`src/utils/dataloaders.ts`): one `find` with an `$in` filter over the batch
keys, a `Map` from id to document (later entries overwrite earlier ones,
hence the reversed first-match lookup), then one result per requested id with
`null` — `none` — for ids the store does not hold.  The malformed-record
check (`employee._id` missing) cannot fire in this model, where every
document carries its id. -/
def employeeLoaderBatch (store : List Employee) (ids : List String) :
    List (Option Employee) :=
  let found := store.filter (fun e => ids.contains e.id)
  ids.map (fun id => found.reverse.find? (fun e => e.id = id))

/-- Modelled per-request behaviour of the external `dataloader` library with
`cache: true` (spec §4.3): all loads issued within one tick are coalesced —
duplicate keys collapse onto the first occurrence — into a single call of the
batch function, whose per-key results are handed back to every requester of
that key.  Returns the per-request results together with the log of
underlying store queries (one key set per batch call). -/
def dedupKeys : List String → List String
  | [] => []
  | k :: ks => k :: (dedupKeys ks).filter (fun x => x ≠ k)

/-- One tick of `employeeLoader.load` requests for `ids`, in request order:
the demultiplexed results and the store-query log. -/
def employeeLoadMany (store : List Employee) (ids : List String) :
    List (Option Employee) × List (List String) :=
  let keys := dedupKeys ids
  let batchResults := employeeLoaderBatch store keys
  (ids.map (fun id =>
     (((keys.zip batchResults).find? (fun p => p.1 = id)).bind (fun p => p.2))),
   [keys])

/-- Ordering relation of the attendance sort `{ date: -1 }`: newest first. -/
def dateDescRel (a b : AttendanceRecord) : Prop :=
  b.date ≤ a.date

instance : DecidableRel dateDescRel := fun a b => inferInstanceAs (Decidable (b.date ≤ a.date))

instance : IsTotal AttendanceRecord dateDescRel :=
  ⟨fun a b => (le_total b.date a.date).imp id id⟩

instance : IsTrans AttendanceRecord dateDescRel :=
  ⟨fun _ _ _ hab hbc => le_trans hbc hab⟩

/-- Store semantics of `find(...).sort(date: -1)`: a stable sort, newest
date first. -/
def storeSortByDateDesc (l : List AttendanceRecord) : List AttendanceRecord :=
  List.insertionSort dateDescRel l

/-- The bucket-filling step of the attendance loader's `forEach`: push the
record onto the bucket of its employee when that bucket exists. -/
def pushBucket (m : List (String × List AttendanceRecord)) (r : AttendanceRecord) :
    List (String × List AttendanceRecord) :=
  m.map (fun p => if p.1 = r.employeeId then (p.1, p.2 ++ [r]) else p)

/-- The batch function of the attendance loader (`createDataLoaders` in
`src/utils/dataloaders.ts`): one `find` with an `$in` filter over the batch
keys sorted `date: -1`, a record map initialised with an empty bucket per
key, a `forEach` pushing each record onto its employee's bucket, then one
bucket per requested id (empty when none). -/
def attendanceLoaderBatch (allRecords : List AttendanceRecord)
    (employeeIds : List String) : List (List AttendanceRecord) :=
  let records :=
    storeSortByDateDesc (allRecords.filter (fun r => employeeIds.contains r.employeeId))
  let buckets := records.foldl pushBucket (employeeIds.map (fun id => (id, [])))
  employeeIds.map (fun id =>
    (((buckets.find? (fun p => p.1 = id)).map (fun p => p.2)).getD []))

/-- The `employeeAttendance` resolver (`src/resolvers/index.ts`, lines
234-256): it destructures only `id` from its arguments — the `dateRange`
argument declared in the GraphQL schema is never read — and returns
`attendanceLoader.load(id)`, i.e. the id's entry of a batch over `[id]`. -/
def employeeAttendance (allRecords : List AttendanceRecord) (id : String)
    (dateRange : Option DateRangeInput) : List AttendanceRecord :=
  ((attendanceLoaderBatch allRecords [id]).headD [])

/-- The filter semantics exactly as the spec sentence states it: every
supplied filter value imposes its constraint (name → case-insensitive
substring, class/role → exact, min/max → inclusive range, subjects → contains
all listed), absent fields impose none, all ANDed. -/
def specFilterMatches (filter : Option EmployeeFilter) (e : Employee) : Bool :=
  match filter with
  | none => true
  | some f =>
    (match f.name with | some s => ciContains e.name s | none => true) &&
    (match f.«class» with | some c => e.«class» = c | none => true) &&
    (match f.minAge with | some v => v ≤ e.age | none => true) &&
    (match f.maxAge with | some v => e.age ≤ v | none => true) &&
    (match f.minAttendance with | some v => v ≤ e.attendance | none => true) &&
    (match f.maxAttendance with | some v => e.attendance ≤ v | none => true) &&
    (match f.subjects with | some l => l.all (fun s => e.subjects.contains s) | none => true) &&
    (match f.role with | some r => e.role = r | none => true)

/-- The amended filter semantics: as `specFilterMatches`, except that a
supplied value that is JS-falsy — `0` for the numeric bounds, the empty
string for `name`/`class`/`role`, the empty list for `subjects` — is treated
as absent and imposes no constraint. -/
def specFilterMatchesTruthy (filter : Option EmployeeFilter) (e : Employee) : Bool :=
  match filter with
  | none => true
  | some f =>
    (match f.name with
     | some s => if s.isEmpty then true else ciContains e.name s
     | none => true) &&
    (match f.«class» with
     | some c => if c.isEmpty then true else e.«class» = c
     | none => true) &&
    (match f.minAge with
     | some v => if v = 0 then true else v ≤ e.age
     | none => true) &&
    (match f.maxAge with
     | some v => if v = 0 then true else e.age ≤ v
     | none => true) &&
    (match f.minAttendance with
     | some v => if v = 0 then true else v ≤ e.attendance
     | none => true) &&
    (match f.maxAttendance with
     | some v => if v = 0 then true else e.attendance ≤ v
     | none => true) &&
    (match f.subjects with
     | some l => if l.isEmpty then true else l.all (fun s => e.subjects.contains s)
     | none => true) &&
    (match f.role with
     | some r => if r.isEmpty then true else e.role = r
     | none => true)
/-- Whether the filter's `name` value, if supplied, is a metacharacter-free
regex pattern — the scope on which the program's `$regex` name matching is a
case-insensitive substring match. -/
def nameIsLiteral (filter : Option EmployeeFilter) : Bool :=
  match filter with
  | none => true
  | some f =>
    match f.name with
    | some s => isLiteralPattern s
    | none => true

/-- A concrete filter for the C8 witness: a literal name pattern plus a
falsy `maxAttendance`. -/
def filterC8 : EmployeeFilter where
  name := some "ann"
  maxAttendance := some 0

/-- A concrete employee for the C8 witness. -/
def empC8 : Employee where
  id := "X"
  name := "Joanne"
  attendance := 50

/-- The stored attendance of employee `id`, when the employee exists. -/
def getAttendance (db : DB) (id : String) : Option ℚ :=
  (db.employees.find? (fun e => e.id = id)).map (fun e => e.attendance)

/-- The value `updateAttendancePercentage` computes for employee `id` from
the current ledger: `(presentDays / totalDays) * 100`, or `100` with no
records. -/
def codeAttendance (db : DB) (id : String) : ℚ :=
  let records := db.records.filter (fun r => r.employeeId = id)
  if records.length = 0 then 100
  else ((records.filter (fun r => r.present)).length : ℚ) / (records.length : ℚ) * 100
/-- A concrete store for the C9 witness: one employee with a stale stored
attendance of 37 and one present-day record. -/
def dbC9 : DB where
  employees := [{ id := "E1", attendance := 37 }]
  records := [{ id := "r1", employeeId := "E1", date := 0, present := true }]
/-- A concrete store for the C2 claim: employee `E1` already has a record for
date 0. -/
def dbC2 : DB where
  employees := [{ id := "E1" }]
  records := [{ id := "r1", employeeId := "E1", date := 0, present := true }]

/-- The duplicate call of the C2 claim: same employee, same date. -/
def inputC2 : AttendanceInput where
  employeeId := "E1"
  date := 0
  present := false
/-- A store for the C4 claim, with no employee at all. -/
def dbC4 : DB where
  employees := []
  records := []
/-- A concrete store for the C1 witness: one employee with the default
attendance of 100 and no records, satisfying the invariant. -/
def dbC1 : DB where
  employees := [{ id := "E1" }]
  records := []

/-- The C1 witness call: mark employee `E1` present on day 0 at time 0. -/
def inputC1 : AttendanceInput where
  employeeId := "E1"
  date := 0
  present := true

/-! ## Helper lemmas -/

/-- JS `Math.ceil` of an exact natural division agrees with `(t + s - 1) / s`. -/
theorem natCeilDiv_eq_ceil (t s : ℕ) (hs : 1 ≤ s) :
    ((t + s - 1) / s : ℕ) = ⌈(t : ℚ) / (s : ℚ)⌉₊ := by
  have hs0 : 0 < s := hs
  have hsQ : (0 : ℚ) < (s : ℚ) := by exact_mod_cast hs0
  rcases Nat.eq_zero_or_pos t with ht | ht
  · subst ht
    simp only [Nat.zero_add, Nat.cast_zero, zero_div, Nat.ceil_zero]
    exact Nat.div_eq_of_lt (by omega)
  · set n := (t + s - 1) / s with hn
    have hn1 : 1 ≤ n := by
      rw [hn, Nat.le_div_iff_mul_le hs0]
      omega
    have hub : n * s ≤ t + s - 1 := by
      rw [hn]
      exact Nat.div_mul_le_self _ _
    have hub2 : t + s - 1 < (n + 1) * s :=
      (Nat.div_lt_iff_lt_mul hs0).mp (Nat.lt_succ_self n)
    have e1 : (n - 1) * s = n * s - s := by
      rw [Nat.sub_mul, Nat.one_mul]
    have e2 : (n + 1) * s = n * s + s := by
      rw [Nat.add_mul, Nat.one_mul]
    symm
    rw [Nat.ceil_eq_iff (by omega)]
    constructor
    · rw [lt_div_iff₀ hsQ]
      have h : (n - 1) * s < t := by
        rw [e1]; omega
      exact_mod_cast h
    · rw [div_le_iff₀ hsQ]
      have h : t ≤ n * s := by omega
      exact_mod_cast h

/-! ## C6: pagination -/

/-- C6.  For every `employees` query with 1-indexed page `p ≥ 1` and
`pageSize s ≥ 1`, the store query skips `(p-1) × s` documents, `totalCount`
counts the records matching the built filter, and the returned page info
satisfies `totalPages = ceil(totalCount / s)`, `hasNextPage = (p <
totalPages)`, `hasPreviousPage = (p > 1)` and `currentPage = p`. -/
theorem employees_pagination_correct (store : List Employee)
    (filter : Option EmployeeFilter) (sort : Option String) (page pageSize : Nat)
    (hp : 1 ≤ page) (hs : 1 ≤ pageSize) :
    (employeesResolver store filter sort page pageSize).2.skip = (page - 1) * pageSize ∧
    (employeesResolver store filter sort page pageSize).1.pageInfo.totalCount =
      (store.filter (fun e => matchesQuery (buildQuery filter) e)).length ∧
    (employeesResolver store filter sort page pageSize).1.pageInfo.totalPages =
      ⌈(((employeesResolver store filter sort page pageSize).1.pageInfo.totalCount : ℚ)) /
        (pageSize : ℚ)⌉₊ ∧
    (employeesResolver store filter sort page pageSize).1.pageInfo.hasNextPage =
      decide (page < (employeesResolver store filter sort page pageSize).1.pageInfo.totalPages) ∧
    (employeesResolver store filter sort page pageSize).1.pageInfo.hasPreviousPage =
      decide (1 < page) ∧
    (employeesResolver store filter sort page pageSize).1.pageInfo.currentPage = page := by
  refine ⟨rfl, rfl, ?_, rfl, rfl, rfl⟩
  exact natCeilDiv_eq_ceil _ _ hs

/-- Witness for C6 at the spec's example: page 2, pageSize 10, a store of 25
matching employees. -/
theorem employees_pagination_correct_witness :
    1 ≤ 2 ∧ 1 ≤ 10 ∧
    ((employeesResolver (List.replicate 25 ({ id := "W", age := 25 } : Employee))
        (some { minAge := some 20, maxAge := some 30 }) none 2 10).2.skip = (2 - 1) * 10 ∧
      (employeesResolver (List.replicate 25 ({ id := "W", age := 25 } : Employee))
        (some { minAge := some 20, maxAge := some 30 }) none 2 10).1.pageInfo.totalCount =
        ((List.replicate 25 ({ id := "W", age := 25 } : Employee)).filter
          (fun e => matchesQuery (buildQuery (some { minAge := some 20, maxAge := some 30 })) e)).length ∧
      (employeesResolver (List.replicate 25 ({ id := "W", age := 25 } : Employee))
        (some { minAge := some 20, maxAge := some 30 }) none 2 10).1.pageInfo.totalPages =
        ⌈(((employeesResolver (List.replicate 25 ({ id := "W", age := 25 } : Employee))
          (some { minAge := some 20, maxAge := some 30 }) none 2 10).1.pageInfo.totalCount : ℚ)) /
          ((10 : ℕ) : ℚ)⌉₊ ∧
      (employeesResolver (List.replicate 25 ({ id := "W", age := 25 } : Employee))
        (some { minAge := some 20, maxAge := some 30 }) none 2 10).1.pageInfo.hasNextPage =
        decide (2 < (employeesResolver (List.replicate 25 ({ id := "W", age := 25 } : Employee))
          (some { minAge := some 20, maxAge := some 30 }) none 2 10).1.pageInfo.totalPages) ∧
      (employeesResolver (List.replicate 25 ({ id := "W", age := 25 } : Employee))
        (some { minAge := some 20, maxAge := some 30 }) none 2 10).1.pageInfo.hasPreviousPage =
        decide (1 < 2) ∧
      (employeesResolver (List.replicate 25 ({ id := "W", age := 25 } : Employee))
        (some { minAge := some 20, maxAge := some 30 }) none 2 10).1.pageInfo.currentPage = 2) :=
  ⟨by decide, by decide,
    employees_pagination_correct (List.replicate 25 ({ id := "W", age := 25 } : Employee))
      (some { minAge := some 20, maxAge := some 30 }) none 2 10 (by decide) (by decide)⟩

/-! ## C7: sort key construction -/

/-- C7 (code bug).  The resolver builds the store sort key as the lowercased
whole enum value, direction suffix included: `NAME_ASC` yields the key
`name_asc`, which is not `name` and is not a field of the employee documents
— and the same holds for every value of the `EmployeeSort` enum, so every
explicit sort is a silent no-op at the store.  Only the default
(`createdAt` descending, used when no sort is supplied) names a real field. -/
theorem employees_sort_key_mangled :
    buildSortObj (some "NAME_ASC") = [("name_asc", 1)] ∧
    "name_asc" ≠ "name" ∧
    buildSortObj (some "CREATED_AT_DESC") = [("created_at_desc", -1)] ∧
    "created_at_desc" ≠ "createdAt" ∧
    (employeeSortValues.all (fun v =>
      (buildSortObj (some v)).all (fun kv => !(employeeFieldNames.contains kv.1)))) = true ∧
    buildSortObj none = [("createdAt", -1)] ∧
    employeeFieldNames.contains "createdAt" = true := by
  decide

/-! ## C3: future-dated attendance -/

/-- C3.  `markAttendance` with a date strictly later than the current time
fails — `success: false` with the date validation error, the code's stable
identifier `INVALID_DATE` for the future-date condition — and leaves the
store untouched: nothing is persisted, no employee is modified. -/
theorem markAttendance_future_date_rejected (db : DB) (now : Int)
    (userId newId : String) (input : AttendanceInput) (h : now < input.date) :
    (markAttendance db now userId newId input).1.success = false ∧
    ({ field := some "date", message := "Invalid date or future date not allowed",
       code := "INVALID_DATE" } : ValidationError) ∈
      (markAttendance db now userId newId input).1.errors ∧
    (markAttendance db now userId newId input).2 = db := by
  have hv : validateDate input.date now = false := by
    simp only [validateDate, decide_eq_false_iff_not]
    omega
  have herr : validateAttendanceInput now input =
      { field := some "date", message := "Invalid date or future date not allowed",
        code := "INVALID_DATE" } ::
      (match input.notes with
       | some n => if ¬ n.isEmpty ∧ n.length > 500 then
           [{ field := some "notes", message := "Notes cannot exceed 500 characters",
              code := "INVALID_NOTES" }]
         else []
       | none => []) := by
    simp [validateAttendanceInput, hv]
  simp only [markAttendance, herr]
  simp only [List.length_cons, Nat.succ_pos, if_pos]
  exact ⟨trivial, List.mem_cons_self _ _, trivial⟩

/-- Witness for C3: a concrete future-dated call. -/
theorem markAttendance_future_date_rejected_witness :
    (0 : Int) < 5 ∧
    ((markAttendance { employees := [{ id := "E1" }] } 0 "U" "R1"
        { employeeId := "E1", date := 5 }).1.success = false ∧
      ({ field := some "date", message := "Invalid date or future date not allowed",
         code := "INVALID_DATE" } : ValidationError) ∈
        (markAttendance { employees := [{ id := "E1" }] } 0 "U" "R1"
          { employeeId := "E1", date := 5 }).1.errors ∧
      (markAttendance { employees := [{ id := "E1" }] } 0 "U" "R1"
        { employeeId := "E1", date := 5 }).2 = { employees := [{ id := "E1" }] }) :=
  ⟨by decide,
    markAttendance_future_date_rejected { employees := [{ id := "E1" }] } 0 "U" "R1"
      { employeeId := "E1", date := 5 } (by decide)⟩

/-! ## C5: batched employee loader -/

theorem mem_dedupKeys {a : String} : ∀ {l : List String}, a ∈ dedupKeys l ↔ a ∈ l := by
  intro l
  induction l with
  | nil => simp [dedupKeys]
  | cons k ks ih =>
    simp only [dedupKeys, List.mem_cons, List.mem_filter]
    constructor
    · rintro (rfl | ⟨h1, _⟩)
      · exact .inl rfl
      · exact .inr (ih.mp h1)
    · rintro (rfl | h)
      · exact .inl rfl
      · by_cases hk : a = k
        · exact .inl hk
        · exact .inr ⟨ih.mpr h, by simpa using hk⟩

theorem zip_map_find? (g : String → Option Employee) :
    ∀ (keys : List String) (id : String), id ∈ keys →
      ((keys.zip (keys.map g)).find? (fun p => p.1 = id)) = some (id, g id) := by
  intro keys
  induction keys with
  | nil => intro id h; cases h
  | cons k ks ih =>
    intro id h
    simp only [List.map_cons, List.zip_cons_cons, List.find?_cons]
    by_cases hk : k = id
    · subst hk
      simp
    · rcases List.mem_cons.mp h with rfl | hmem
      · exact absurd rfl hk
      · simpa [hk] using ih id hmem

theorem find?_reverse_of_nodup (id : String) :
    ∀ (l : List Employee), (l.map (fun e => e.id)).Nodup →
      l.reverse.find? (fun e => e.id = id) = l.find? (fun e => e.id = id) := by
  intro l
  induction l with
  | nil => simp
  | cons a l ih =>
    intro h
    have h' : (a.id :: l.map (fun e => e.id)).Nodup := by simpa using h
    have hnd1 : a.id ∉ l.map (fun e => e.id) := (List.nodup_cons.mp h').1
    have hnd2 : (l.map (fun e => e.id)).Nodup := (List.nodup_cons.mp h').2
    rw [List.reverse_cons, List.find?_append]
    by_cases ha : a.id = id
    · have hrev : l.reverse.find? (fun e => e.id = id) = none := by
        rw [List.find?_eq_none]
        intro x hx hxid
        have hxl : x ∈ l := List.mem_reverse.mp hx
        apply hnd1
        have hxe : x.id = a.id := by
          have := of_decide_eq_true hxid
          rw [this, ha]
        exact hxe ▸ List.mem_map_of_mem (fun e => e.id) hxl
      simp [hrev, List.find?_cons, ha]
    · have hsing : List.find? (fun e => e.id = id) [a] = none := by
        simp [List.find?_cons, ha]
      rw [hsing, Option.or_none, ih hnd2]
      simp [List.find?_cons, ha]

theorem find?_filter_contains (ids : List String) (id : String) (hid : id ∈ ids) :
    ∀ l : List Employee,
      (l.filter (fun e => ids.contains e.id)).find? (fun e => e.id = id) =
        l.find? (fun e => e.id = id) := by
  intro l
  induction l with
  | nil => simp
  | cons a l ih =>
    by_cases ha : a.id = id
    · have hc : ids.contains a.id = true := by
        rw [ha]
        exact List.elem_iff.mpr hid
      rw [List.filter_cons, if_pos hc, List.find?_cons, List.find?_cons]
      simp [ha]
    · by_cases hc : ids.contains a.id
      · rw [List.filter_cons, if_pos hc, List.find?_cons, List.find?_cons]
        simpa [ha] using ih
      · rw [List.filter_cons, if_neg (by simpa using hc), ih, List.find?_cons]
        simp [ha]

/-- C5.  Within one unit of work, any sequence of employee-loader requests
issues exactly one underlying store query, over the distinct key set in
first-request order, and hands back one result per request in request order —
the stored employee for ids the store holds, an explicit `none` marker for
ids it does not — without failing the batch.  The hypothesis is the store's
uniqueness of `_id`. -/
theorem employeeLoader_coalesces_and_demuxes (store : List Employee) (ids : List String)
    (h : (store.map (fun e => e.id)).Nodup) :
    (employeeLoadMany store ids).2 = [dedupKeys ids] ∧
    (employeeLoadMany store ids).1 =
      ids.map (fun id => store.find? (fun e => e.id = id)) := by
  refine ⟨rfl, ?_⟩
  simp only [employeeLoadMany, employeeLoaderBatch]
  apply List.map_congr_left
  intro id hid
  have hidk : id ∈ dedupKeys ids := mem_dedupKeys.mpr hid
  rw [zip_map_find? _ (dedupKeys ids) id hidk]
  simp only [Option.some_bind]
  have hnodup : ((store.filter (fun e => (dedupKeys ids).contains e.id)).map
      (fun e => e.id)).Nodup :=
    List.Nodup.sublist (List.Sublist.map _ (List.filter_sublist _)) h
  rw [find?_reverse_of_nodup id _ hnodup, find?_filter_contains (dedupKeys ids) id hidk]

/-- Witness for C5: requests `[A, B, A, C]` against a store holding employees
`A` and `C` but not `B` issue one query over `A, B, C` and return
`[emp(A), none, emp(A), emp(C)]`. -/
theorem employeeLoader_coalesces_and_demuxes_witness :
    (([{ id := "A" }, { id := "C" }] : List Employee).map (fun e => e.id)).Nodup ∧
    (employeeLoadMany [{ id := "A" }, { id := "C" }] ["A", "B", "A", "C"]).2 =
      [["A", "B", "C"]] ∧
    (employeeLoadMany [{ id := "A" }, { id := "C" }] ["A", "B", "A", "C"]).1 =
      [some { id := "A" }, none, some { id := "A" }, some { id := "C" }] := by
  refine ⟨by decide, ?_, ?_⟩
  · rw [(employeeLoader_coalesces_and_demuxes [{ id := "A" }, { id := "C" }]
      ["A", "B", "A", "C"] (by decide)).1]
    decide
  · rw [(employeeLoader_coalesces_and_demuxes [{ id := "A" }, { id := "C" }]
      ["A", "B", "A", "C"] (by decide)).2]
    decide

/-! ## C10: employeeAttendance ignores dateRange -/

theorem foldl_pushBucket_single (id : String) :
    ∀ (records : List AttendanceRecord) (acc : List AttendanceRecord),
      records.foldl pushBucket [(id, acc)] =
        [(id, acc ++ records.filter (fun r => r.employeeId = id))] := by
  intro records
  induction records with
  | nil =>
    intro acc
    simp
  | cons r rs ih =>
    intro acc
    simp only [List.foldl_cons]
    by_cases hr : id = r.employeeId
    · have hpush : pushBucket [(id, acc)] r = [(id, acc ++ [r])] := by
        simp [pushBucket, hr]
      rw [hpush, ih, List.filter_cons, if_pos (by simp [hr.symm])]
      simp [List.append_assoc]
    · have hpush : pushBucket [(id, acc)] r = [(id, acc)] := by
        simp [pushBucket, hr]
      rw [hpush, ih, List.filter_cons, if_neg (by simp; exact fun hh => hr hh.symm)]

theorem attendanceLoaderBatch_single (recs : List AttendanceRecord) (id : String) :
    attendanceLoaderBatch recs [id] =
      [storeSortByDateDesc (recs.filter (fun r => r.employeeId = id))] := by
  have hcongr : recs.filter (fun r => [id].contains r.employeeId) =
      recs.filter (fun r => r.employeeId = id) := by
    apply List.filter_congr
    intro r _
    simp [List.contains]
  simp only [attendanceLoaderBatch, List.map_cons, List.map_nil, hcongr]
  rw [foldl_pushBucket_single]
  have hall : (storeSortByDateDesc (recs.filter (fun r => r.employeeId = id))).filter
      (fun r => r.employeeId = id) =
      storeSortByDateDesc (recs.filter (fun r => r.employeeId = id)) := by
    apply List.filter_eq_self.mpr
    intro r hr
    have : r ∈ recs.filter (fun x => x.employeeId = id) := by
      have hperm := List.perm_insertionSort
        (fun a b => dateDescRel a b) (recs.filter (fun x => x.employeeId = id))
      exact hperm.mem_iff.mp hr
    exact (List.mem_filter.mp this).2
  simp [List.find?_cons, hall]

/-- C10.  For every `employeeAttendance(id, dateRange?)` call, the returned
sequence is the employee's complete attendance ledger (a permutation of all
of that employee's stored records), ordered newest date first, and it is
identical whether or not a `dateRange` argument is supplied: the parameter
has no effect on the result. -/
theorem employeeAttendance_ignores_dateRange (recs : List AttendanceRecord)
    (id : String) (dateRange : DateRangeInput) :
    employeeAttendance recs id (some dateRange) = employeeAttendance recs id none ∧
    (employeeAttendance recs id none).Perm
      (recs.filter (fun r => r.employeeId = id)) ∧
    List.Sorted dateDescRel (employeeAttendance recs id none) := by
  refine ⟨rfl, ?_, ?_⟩
  · rw [employeeAttendance, attendanceLoaderBatch_single]
    exact List.perm_insertionSort _ _
  · rw [employeeAttendance, attendanceLoaderBatch_single]
    exact List.sorted_insertionSort dateDescRel _

/-! ## C8: filter composition -/

theorem char_toNat_ofNat_of_valid (n : Nat) (h : n < 0xd800) :
    (Char.ofNat n).toNat = n := by
  rw [Char.ofNat, dif_pos (Or.inl h)]
  simp [Char.ofNatAux, Char.toNat, UInt32.toNat, BitVec.toNat_ofNatLt]

theorem jsCharToLower_ne_dot (c : Char) (h : ¬ c = '.') : ¬ jsCharToLower c = '.' := by
  rw [jsCharToLower]
  split
  · rename_i hc
    have hA : ('A' : Char).toNat ≤ c.toNat := hc.1
    have hZ : c.toNat ≤ ('Z' : Char).toNat := hc.2
    have h65 : ('A' : Char).toNat = 65 := by decide
    have h90 : ('Z' : Char).toNat = 90 := by decide
    have h46 : ('.' : Char).toNat = 46 := by decide
    intro heq
    have hh : (Char.ofNat (c.toNat + 32)).toNat = ('.' : Char).toNat :=
      congrArg Char.toNat heq
    rw [char_toNat_ofNat_of_valid (c.toNat + 32) (by omega)] at hh
    omega
  · exact h

theorem mapped_pattern_no_dot (s : String) (h : isLiteralPattern s = true) :
    ∀ p ∈ s.data.map jsCharToLower, ¬ p = '.' := by
  intro p hp
  rcases List.mem_map.mp hp with ⟨q, hq, rfl⟩
  have hq' := List.all_eq_true.mp h q hq
  apply jsCharToLower_ne_dot q
  intro hdot
  rw [hdot] at hq'
  simp only [Bool.not_eq_eq_eq_not] at hq'
  exact absurd hq' (by decide)

theorem regexLeadingMatch_eq_leadingMatch (pat : List Char)
    (h : ∀ p ∈ pat, ¬ p = '.') :
    ∀ hay, regexLeadingMatch pat hay = leadingMatch pat hay := by
  induction pat with
  | nil =>
    intro hay
    cases hay <;> rfl
  | cons p ps ih =>
    intro hay
    cases hay with
    | nil => rfl
    | cons c cs =>
      have hp : ¬ p = '.' := h p (List.mem_cons_self _ _)
      have ihh := ih (fun q hq => h q (List.mem_cons_of_mem _ hq)) cs
      simp [regexLeadingMatch, leadingMatch, regexCharMatches, hp, ihh]

theorem regexSearch_eq_occursIn (pat : List Char) (h : ∀ p ∈ pat, ¬ p = '.') :
    ∀ hay, regexSearch pat hay = occursIn pat hay := by
  intro hay
  induction hay with
  | nil => rfl
  | cons c cs ih =>
    simp only [regexSearch, occursIn, regexLeadingMatch_eq_leadingMatch pat h, ih]

/-- On metacharacter-free patterns, the store's case-insensitive regex
search is exactly the spec's case-insensitive substring match. -/
theorem ciRegexMatch_eq_ciContains (v s : String) (h : isLiteralPattern s = true) :
    ciRegexMatch v s = ciContains v s := by
  rw [ciRegexMatch, ciContains]
  exact regexSearch_eq_occursIn _ (mapped_pattern_no_dot s h) _

/-- Counterexample for C8 as stated, in both directions it fails.  First, a
filter supplying `maxAttendance = 0` must, per the claim, restrict to
`attendance ≤ 0`, but the built query drops the falsy value, so an employee
with attendance 50 still matches.  Second, the claim reads every supplied
`name` as a case-insensitive substring, but the code passes it as a raw
`$regex` pattern: the pattern `.` is no substring of the name `xyz`, yet the
store matches it as a regex wildcard. -/
theorem employees_filter_claim_counterexample :
    (specFilterMatches (some { maxAttendance := some 0 })
        { id := "X", attendance := 50 } = false ∧
      matchesQuery (buildQuery (some { maxAttendance := some 0 }))
        { id := "X", attendance := 50 } = true) ∧
    (specFilterMatches (some { name := some "." })
        { id := "Y", name := "xyz" } = false ∧
      matchesQuery (buildQuery (some { name := some "." }))
        { id := "Y", name := "xyz" } = true) := by
  decide

/-- C8 (amended).  For every filter whose supplied `name`, if any, is a
metacharacter-free pattern (so that the raw `$regex` the code builds from it
searches exactly like a substring), the built store query matches exactly
the records satisfying the AND of the spec's per-field predicates — name →
case-insensitive substring, class/role → exact, min/max → inclusive ranges,
subjects → contains all listed — with JS-falsy supplied values (0, empty
string, empty list) imposing no constraint. -/
theorem employees_filter_semantics (filter : Option EmployeeFilter) (e : Employee)
    (hname : nameIsLiteral filter = true) :
    matchesQuery (buildQuery filter) e = specFilterMatchesTruthy filter e := by
  rcases filter with _ | f
  · rfl
  · rcases f with ⟨name, cls, minA, maxA, minAt, maxAt, subj, role, dr⟩
    simp only [nameIsLiteral] at hname
    simp only [buildQuery, matchesQuery, specFilterMatchesTruthy]
    refine congrArg₂ (· && ·) (congrArg₂ (· && ·) (congrArg₂ (· && ·)
      (congrArg₂ (· && ·) (congrArg₂ (· && ·) (congrArg₂ (· && ·)
        (congrArg₂ (· && ·) ?_ ?_) ?_) ?_) ?_) ?_) ?_) ?_
    · rcases name with _ | s
      · rfl
      · have hs : isLiteralPattern s = true := hname
        by_cases h : s.isEmpty <;> simp [h, ciRegexMatch_eq_ciContains e.name s hs]
    · rcases cls with _ | s
      · rfl
      · by_cases h : s.isEmpty <;> simp [h]
    · rcases minA with _ | v
      · rfl
      · by_cases h : v = 0 <;> simp [h]
    · rcases maxA with _ | v
      · rfl
      · by_cases h : v = 0 <;> simp [h]
    · rcases minAt with _ | v
      · rfl
      · by_cases h : v = 0 <;> simp [h]
    · rcases maxAt with _ | v
      · rfl
      · by_cases h : v = 0 <;> simp [h]
    · rcases subj with _ | l
      · rfl
      · by_cases h : l.isEmpty <;> simp [h]
    · rcases role with _ | s
      · rfl
      · by_cases h : s.isEmpty <;> simp [h]

/-- Witness for C8's amended statement: a literal name pattern (`ann`,
matching `Joanne` case-insensitively) together with a falsy
`maxAttendance`. -/
theorem employees_filter_semantics_witness :
    nameIsLiteral (some filterC8) = true ∧
    matchesQuery (buildQuery (some filterC8)) empC8 =
      specFilterMatchesTruthy (some filterC8) empC8 :=
  ⟨by decide, employees_filter_semantics (some filterC8) empC8 (by decide)⟩

/-! ## C9: recalculation is idempotent -/

theorem find?_map_replace (id : String) (e' : Employee) (h : e'.id = id) :
    ∀ l : List Employee,
      (l.map (fun x => if x.id = id then e' else x)).find? (fun x => x.id = id) =
        (l.find? (fun x => x.id = id)).map (fun _ => e') := by
  intro l
  induction l with
  | nil => rfl
  | cons a l ih =>
    simp only [List.map_cons, List.find?_cons]
    by_cases ha : a.id = id
    · simp [ha, h]
    · simp [ha, ih]

theorem updateAttendanceStats_records (db : DB) (now : Int) (id : String) :
    (updateAttendanceStats db now id).records = db.records := by
  rw [updateAttendanceStats]
  cases db.employees.find? (fun e => e.id = id) with
  | none => rfl
  | some e => rfl

theorem getAttendance_updateAttendanceStats (db : DB) (now : Int) (id : String)
    (h : (db.employees.find? (fun e => e.id = id)).isSome) :
    getAttendance (updateAttendanceStats db now id) id = some (codeAttendance db id) := by
  obtain ⟨e, he⟩ := Option.isSome_iff_exists.mp h
  have heid : e.id = id :=
    of_decide_eq_true (@List.find?_some Employee (fun x => decide (x.id = id)) e db.employees he)
  rw [updateAttendanceStats, he]
  simp only [updateAttendancePercentage, getAttendance, heid]
  rw [find?_map_replace id _ (by simp), he]
  simp [codeAttendance, heid]

/-- C9.  `recalculate` (`updateAttendanceStats` / `updateAttendancePercentage`)
is idempotent: for every existing employee, running it twice in a row with no
intervening attendance writes leaves the same stored attendance after the
second call as after the first, regardless of the previously stored value. -/
theorem recalculate_idempotent (db : DB) (now1 now2 : Int) (id : String)
    (h : (db.employees.find? (fun e => e.id = id)).isSome) :
    getAttendance (updateAttendanceStats (updateAttendanceStats db now1 id) now2 id) id =
      getAttendance (updateAttendanceStats db now1 id) id := by
  have h1 : getAttendance (updateAttendanceStats db now1 id) id =
      some (codeAttendance db id) :=
    getAttendance_updateAttendanceStats db now1 id h
  have h2 : ((updateAttendanceStats db now1 id).employees.find?
      (fun e => e.id = id)).isSome := by
    have h1' := h1
    simp only [getAttendance] at h1'
    cases hf : (updateAttendanceStats db now1 id).employees.find? (fun e => e.id = id) with
    | none => rw [hf] at h1'; simp at h1'
    | some e => simp
  have h3 : getAttendance (updateAttendanceStats (updateAttendanceStats db now1 id) now2 id)
      id = some (codeAttendance (updateAttendanceStats db now1 id) id) :=
    getAttendance_updateAttendanceStats _ now2 id h2
  have h4 : codeAttendance (updateAttendanceStats db now1 id) id = codeAttendance db id := by
    simp only [codeAttendance, updateAttendanceStats_records]
  rw [h3, h4, h1]

/-- Witness for C9 on a concrete store. -/
theorem recalculate_idempotent_witness :
    ((dbC9.employees.find? (fun e => e.id = "E1")).isSome) ∧
    getAttendance (updateAttendanceStats (updateAttendanceStats dbC9 4 "E1") 9 "E1") "E1" =
      getAttendance (updateAttendanceStats dbC9 4 "E1") "E1" :=
  ⟨by decide, recalculate_idempotent dbC9 4 9 "E1" (by decide)⟩

/-! ## C2: duplicate attendance record -/

theorem markAttendance_create_duplicate (db : DB) (now : Int) (userId newId : String)
    (input : AttendanceInput)
    (hd : validateDate input.date now = true)
    (hemp : (db.employees.find? (fun e => e.id = input.employeeId)).isSome)
    (hdup : db.records.any
      (fun r => r.employeeId = input.employeeId ∧ r.date = input.date) = true) :
    attendanceRecordCreate db now
      { id := newId, employeeId := input.employeeId, date := input.date,
        present := input.present, notes := input.notes, createdBy := userId,
        createdAt := now } = .error "E11000 duplicate key error" := by
  obtain ⟨e, he⟩ := Option.isSome_iff_exists.mp hemp
  rw [attendanceRecordCreate]
  rw [if_neg (by simp [hd])]
  rw [if_neg (by rw [he]; simp)]
  rw [if_neg (fun hgt => absurd hgt (not_lt.mpr (of_decide_eq_true hd)))]
  rw [if_pos hdup]

theorem validateDate_of_valid (now : Int) (input : AttendanceInput)
    (hval : validateAttendanceInput now input = []) :
    validateDate input.date now = true := by
  rcases hb : validateDate input.date now
  · exfalso
    simp only [validateAttendanceInput, hb] at hval
    simp at hval
  · rfl

/-- C2 (amended).  A `markAttendance` call that passes input validation, for
an existing employee, for a `(employeeId, date)` pair that already has a
record, fails — `success: false` with a single error carrying the store's
duplicate-key message under the generic code `INTERNAL_SERVER_ERROR` (no
Conflict-coded error exists in this code) — and leaves the whole store, in
particular the employee's stored attendance, unchanged. -/
theorem markAttendance_duplicate_fails_unchanged (db : DB) (now : Int)
    (userId newId : String) (input : AttendanceInput)
    (hval : validateAttendanceInput now input = [])
    (hemp : (db.employees.find? (fun e => e.id = input.employeeId)).isSome)
    (hdup : db.records.any
      (fun r => r.employeeId = input.employeeId ∧ r.date = input.date) = true) :
    (markAttendance db now userId newId input).1.success = false ∧
    (markAttendance db now userId newId input).1.errors =
      [{ message := "E11000 duplicate key error", code := "INTERNAL_SERVER_ERROR" }] ∧
    (markAttendance db now userId newId input).2 = db := by
  have hd := validateDate_of_valid now input hval
  have hcreate := markAttendance_create_duplicate db now userId newId input hd hemp hdup
  simp only [markAttendance, hval, hcreate, List.length_nil]
  norm_num

/-- Witness for C2's amended statement. -/
theorem markAttendance_duplicate_fails_unchanged_witness :
    validateAttendanceInput 5 inputC2 = [] ∧
    (dbC2.employees.find? (fun e => e.id = inputC2.employeeId)).isSome ∧
    dbC2.records.any
      (fun r => r.employeeId = inputC2.employeeId ∧ r.date = inputC2.date) = true ∧
    ((markAttendance dbC2 5 "U" "R2" inputC2).1.success = false ∧
      (markAttendance dbC2 5 "U" "R2" inputC2).1.errors =
        [{ message := "E11000 duplicate key error", code := "INTERNAL_SERVER_ERROR" }] ∧
      (markAttendance dbC2 5 "U" "R2" inputC2).2 = dbC2) :=
  ⟨by decide, by decide, by decide,
    markAttendance_duplicate_fails_unchanged dbC2 5 "U" "R2" inputC2
      (by decide) (by decide) (by decide)⟩

/-- Counterexample for C2 as stated: the duplicate call does fail and does
leave the attendance unchanged, but the error it fails with is the generic
`INTERNAL_SERVER_ERROR` response, not a Conflict-coded error: no error in
the response carries a `CONFLICT` code. -/
theorem markAttendance_duplicate_no_conflict_code :
    (markAttendance dbC2 5 "U" "R2" inputC2).1.success = false ∧
    ((markAttendance dbC2 5 "U" "R2" inputC2).1.errors.all
      (fun err => err.code ≠ "CONFLICT")) = true ∧
    (markAttendance dbC2 5 "U" "R2" inputC2).1.errors =
      [{ message := "E11000 duplicate key error", code := "INTERNAL_SERVER_ERROR" }] := by
  decide

/-! ## C4: missing employee -/

theorem markAttendance_create_missing_employee (db : DB) (now : Int)
    (userId newId : String) (input : AttendanceInput)
    (hd : validateDate input.date now = true)
    (hemp : db.employees.find? (fun e => e.id = input.employeeId) = none) :
    attendanceRecordCreate db now
      { id := newId, employeeId := input.employeeId, date := input.date,
        present := input.present, notes := input.notes, createdBy := userId,
        createdAt := now } = .error "Employee not found" := by
  rw [attendanceRecordCreate]
  rw [if_neg (by simp [hd])]
  rw [if_pos (by rw [hemp]; rfl)]

/-- C4 (amended).  A `markAttendance` call that passes input validation but
whose `employeeId` identifies no stored employee fails — `success: false`
with one error whose message is `Employee not found` but whose code is the
generic `INTERNAL_SERVER_ERROR`, not the `NOT_FOUND` code this API uses
elsewhere — and persists nothing: the store is unchanged. -/
theorem markAttendance_missing_employee_fails_unchanged (db : DB) (now : Int)
    (userId newId : String) (input : AttendanceInput)
    (hval : validateAttendanceInput now input = [])
    (hemp : db.employees.find? (fun e => e.id = input.employeeId) = none) :
    (markAttendance db now userId newId input).1.success = false ∧
    (markAttendance db now userId newId input).1.errors =
      [{ message := "Employee not found", code := "INTERNAL_SERVER_ERROR" }] ∧
    (markAttendance db now userId newId input).2 = db := by
  have hd := validateDate_of_valid now input hval
  have hcreate := markAttendance_create_missing_employee db now userId newId input hd hemp
  simp only [markAttendance, hval, hcreate, List.length_nil]
  norm_num

/-- Witness for C4's amended statement. -/
theorem markAttendance_missing_employee_fails_unchanged_witness :
    validateAttendanceInput 5 inputC2 = [] ∧
    dbC4.employees.find? (fun e => e.id = inputC2.employeeId) = none ∧
    ((markAttendance dbC4 5 "U" "R2" inputC2).1.success = false ∧
      (markAttendance dbC4 5 "U" "R2" inputC2).1.errors =
        [{ message := "Employee not found", code := "INTERNAL_SERVER_ERROR" }] ∧
      (markAttendance dbC4 5 "U" "R2" inputC2).2 = dbC4) :=
  ⟨by decide, by decide,
    markAttendance_missing_employee_fails_unchanged dbC4 5 "U" "R2" inputC2
      (by decide) (by decide)⟩

/-- Counterexample for C4 as stated: the call for an unknown employee fails
and persists nothing, but no error in the response carries the `NOT_FOUND`
code (`updateEmployee` shows that code is this API's NotFound
representation); the failure is the generic `INTERNAL_SERVER_ERROR`. -/
theorem markAttendance_missing_employee_no_notfound_code :
    (markAttendance dbC4 5 "U" "R2" inputC2).1.success = false ∧
    ((markAttendance dbC4 5 "U" "R2" inputC2).1.errors.all
      (fun err => err.code ≠ "NOT_FOUND")) = true ∧
    (markAttendance dbC4 5 "U" "R2" inputC2).1.errors =
      [{ message := "Employee not found", code := "INTERNAL_SERVER_ERROR" }] ∧
    (markAttendance dbC4 5 "U" "R2" inputC2).2 = dbC4 := by
  decide

/-! ## C1: the attendance invariant after markAttendance -/

theorem expectedAttendance_append_other (db : DB) (doc : AttendanceRecord) (id : String)
    (h : doc.employeeId ≠ id) :
    expectedAttendance { db with records := db.records ++ [doc] } id =
      expectedAttendance db id := by
  simp only [expectedAttendance, List.filter_append]
  rw [show List.filter (fun r => r.employeeId = id) [doc] = [] from by simp [h],
    List.append_nil]
  simp

/-- One recomputation restores the invariant: if every employee other than
the target already satisfies the invariant, then after
`updateAttendanceStats` every employee does. -/
theorem updateAttendanceStats_invariant (db : DB) (now : Int) (tid : String)
    (hexc : ∀ e ∈ db.employees, e.id ≠ tid → e.attendance = expectedAttendance db e.id) :
    attendanceInvariant (updateAttendanceStats db now tid) := by
  rw [updateAttendanceStats]
  cases hf : db.employees.find? (fun e => e.id = tid) with
  | none =>
    intro e' he'
    have hnone : ¬ (e'.id = tid) := by
      have := List.find?_eq_none.mp hf e' he'
      simpa using this
    exact hexc e' he' hnone
  | some e =>
    have heid : e.id = tid :=
      of_decide_eq_true (@List.find?_some Employee (fun x => decide (x.id = tid)) e
        db.employees hf)
    simp only [updateAttendancePercentage]
    intro e' he'
    rcases List.mem_map.mp he' with ⟨x, hx, hxe⟩
    have hrecs : (updateAttendancePercentage db now e).records = db.records := rfl
    by_cases hxid : x.id = e.id
    · rw [if_pos hxid] at hxe
      subst hxe
      show (if (db.records.filter (fun r => r.employeeId = e.id)).length = 0 then (100 : ℚ)
          else ((((db.records.filter (fun r => r.employeeId = e.id)).filter
            (fun r => r.present)).length : ℚ)) /
            (((db.records.filter (fun r => r.employeeId = e.id)).length : ℚ)) * 100) =
        expectedAttendance _ e.id
      have hexp : expectedAttendance
          { db with employees := db.employees.map (fun x =>
            if x.id = e.id then
              { e with
                attendance :=
                  if (db.records.filter (fun r => r.employeeId = e.id)).length = 0 then (100 : ℚ)
                  else ((((db.records.filter (fun r => r.employeeId = e.id)).filter
                    (fun r => r.present)).length : ℚ)) /
                    (((db.records.filter (fun r => r.employeeId = e.id)).length : ℚ)) * 100,
                lastAttendanceUpdate := some now }
            else x) } e.id = expectedAttendance db e.id := rfl
      rw [hexp, expectedAttendance]
      split
      · rfl
      · ring
    · rw [if_neg hxid] at hxe
      subst hxe
      have hne : x.id ≠ tid := fun hx' => hxid (by rw [hx', ← heid])
      exact hexc x hx hne

/-- C1.  If the attendance invariant holds before a `markAttendance` call and
the call reports success, the invariant holds afterwards: every employee's
stored `attendance` equals `100 × presentDays / totalDays` over that
employee's records — `100` for an employee with no records — and in
particular the targeted employee's stored attendance equals that value over
the ledger that now includes the new record. -/
theorem markAttendance_success_invariant (db : DB) (now : Int) (userId newId : String)
    (input : AttendanceInput) (hInv : attendanceInvariant db)
    (hSucc : (markAttendance db now userId newId input).1.success = true) :
    attendanceInvariant (markAttendance db now userId newId input).2 ∧
    ∀ e ∈ (markAttendance db now userId newId input).2.employees,
      e.id = input.employeeId →
        e.attendance =
          expectedAttendance (markAttendance db now userId newId input).2
            input.employeeId := by
  by_cases hv : (validateAttendanceInput now input).length > 0
  · exfalso
    simp only [markAttendance, if_pos hv] at hSucc
    exact Bool.false_ne_true hSucc
  · cases hc : attendanceRecordCreate db now
      { id := newId, employeeId := input.employeeId, date := input.date,
        present := input.present, notes := input.notes, createdBy := userId,
        createdAt := now } with
    | error msg =>
      exfalso
      simp only [markAttendance, if_neg hv, hc] at hSucc
      exact Bool.false_ne_true hSucc
    | ok db1 =>
      have hpost : (markAttendance db now userId newId input).2 =
          updateAttendanceStats db1 now input.employeeId := by
        simp only [markAttendance, if_neg hv, hc]
      rw [attendanceRecordCreate] at hc
      split_ifs at hc with h1 h2 h3 h4
      injection hc with hdb1
      have hexc1 : ∀ e ∈ ({ db with records := db.records ++
            [{ id := newId, employeeId := input.employeeId, date := input.date,
               present := input.present, notes := input.notes, createdBy := userId,
               createdAt := now }] } : DB).employees,
          e.id ≠ input.employeeId →
          e.attendance = expectedAttendance ({ db with records := db.records ++
            [{ id := newId, employeeId := input.employeeId, date := input.date,
               present := input.present, notes := input.notes, createdBy := userId,
               createdAt := now }] } : DB) e.id := by
        intro e he hne
        rw [expectedAttendance_append_other db _ e.id (fun hk => hne hk.symm)]
        exact hInv e he
      have hinv1 : attendanceInvariant db1 := by
        rw [← hdb1]
        exact updateAttendanceStats_invariant _ now input.employeeId hexc1
      have hinv2 : attendanceInvariant
          (updateAttendanceStats db1 now input.employeeId) :=
        updateAttendanceStats_invariant db1 now input.employeeId
          (fun e he _ => hinv1 e he)
      rw [hpost]
      refine ⟨hinv2, ?_⟩
      intro e he heid
      have h5 := hinv2 e he
      rw [heid] at h5
      exact h5

/-- Witness for C1 on a concrete successful call. -/
theorem markAttendance_success_invariant_witness :
    attendanceInvariant dbC1 ∧
    (markAttendance dbC1 0 "U" "R1" inputC1).1.success = true ∧
    (attendanceInvariant (markAttendance dbC1 0 "U" "R1" inputC1).2 ∧
      ∀ e ∈ (markAttendance dbC1 0 "U" "R1" inputC1).2.employees,
        e.id = inputC1.employeeId →
          e.attendance =
            expectedAttendance (markAttendance dbC1 0 "U" "R1" inputC1).2
              inputC1.employeeId) :=
  ⟨by decide, by decide,
    markAttendance_success_invariant dbC1 0 "U" "R1" inputC1 (by decide) (by decide)⟩

end EmployeeApi
